import Mathlib

/-!
Verification of the agentscope analytics core: a shallow embedding of the
session log parser (`parser.js`), the analytics engine (`analytics.js`),
the anomaly detector (`anomaly.js`) and the real-time watcher
(`watcher.js`), together with theorems settling the specification claims.

Modelling conventions:
* JavaScript numbers are modelled as `ℚ` (exact arithmetic); counts that the
  source obtains as array lengths are `ℕ`.
* Timestamps are milliseconds on a single linear local timeline (`Int`);
  a decoded event's timestamp is `Option Int` (absent timestamps are legal,
  invalid date strings are outside the model).  `Date.setHours(0,0,0,0)`
  becomes flooring to a multiple of `DAY`; `setDate(d - n)` becomes
  subtracting `n * DAY`.
* Possibly-absent JSON fields are `Option`s; JS truthiness tests on them are
  modelled per use site (`getD 0`, emptiness tests on strings, …).
* Display-only message strings of anomalies and console output are omitted:
  no claim mentions them.
-/

def DAY : Int := 86400000

def HOUR : Int := 3600000

/-- Local midnight of the day containing instant `t` (models
`new Date(t).setHours(0,0,0,0)` on the no-DST timeline). -/
def midnight (t : Int) : Int := t - t % DAY

/-- Local hour of day of instant `t` (models `Date.prototype.getHours`). -/
def hourOf (t : Int) : Nat := ((t % DAY) / HOUR).toNat

/-- JavaScript `Math.round`: half-way cases round toward positive infinity. -/
def jsRound (q : ℚ) : Int := ⌊q + (1 : ℚ)/2⌋

/-- Sum of `f` over a list (models `Array.prototype.reduce((a, x) => a + f(x), 0)`). -/
def sumBy {α M : Type} [AddCommMonoid M] (l : List α) (f : α → M) : M :=
  (l.map f).sum

/-- Cumulative token usage of a session (`session.tokens` in `parser.js`). -/
structure TokenUsage where
  input : ℚ
  output : ℚ
  cacheRead : ℚ
  cacheWrite : ℚ
  total : ℚ
deriving DecidableEq

/-- Outcome attached to a tool call (`toolCall.result` in `parser.js`). -/
structure ToolResult where
  isError : Bool
  timestamp : Option Int
deriving DecidableEq

/-- A tool invocation recorded on the session (`session.toolCalls` element).
The id comes from a content block's `id` field, which may be absent. -/
structure ToolCall where
  id : Option String
  name : String
  timestamp : Option Int
  result : Option ToolResult
deriving DecidableEq

/-- A message recorded on the session (`session.messages` element). -/
structure Message where
  role : String
  timestamp : Option Int
  hasToolCalls : Bool
deriving DecidableEq

/-- The session aggregate built by `LogParser.processSession`. -/
structure Session where
  id : String
  file : String
  startTime : Option Int
  endTime : Option Int
  messages : List Message
  toolCalls : List ToolCall
  tokens : TokenUsage
  cost : ℚ
  model : Option String
  provider : Option String
  durationMs : Option Int
deriving DecidableEq

/-- A usage delta carried by an assistant message (`entry.message.usage`).
`cost` models the nested `usage.cost.total` field, flattened. -/
structure Usage where
  input : Option ℚ
  output : Option ℚ
  cacheRead : Option ℚ
  cacheWrite : Option ℚ
  totalTokens : Option ℚ
  cost : Option ℚ
deriving DecidableEq

/-- A content block of a message; `btype` models the block's `type` field. -/
structure Block where
  btype : String
  id : Option String
  name : String
deriving DecidableEq

/-- The nested `entry.message` object of a decoded log line. -/
structure MessageObj where
  role : String
  content : Option (List Block)
  usage : Option Usage
  toolCallId : Option String
  isError : Bool
deriving DecidableEq

/-- One decoded log line (a successfully `JSON.parse`d entry); `etype`
models the entry's `type` discriminator. -/
structure Entry where
  timestamp : Option Int
  etype : String
  id : Option String
  modelId : Option String
  provider : Option String
  message : Option MessageObj
deriving DecidableEq

/-- The empty session state `processSession` starts from; `fileBase` models
`path.basename(filePath, ext)` with the jsonl extension stripped. -/
def initSession (filePath fileBase : String) : Session :=
  { id := fileBase, file := filePath, startTime := none, endTime := none,
    messages := [], toolCalls := [], tokens := ⟨0, 0, 0, 0, 0⟩, cost := 0,
    model := none, provider := none, durationMs := none }

/-- Running min/max of `startTime`/`endTime` over event timestamps
(the timestamp extraction step of `processSession`). -/
def applyTimestamp (s : Session) (e : Entry) : Session :=
  match e.timestamp with
  | some ts =>
    { s with
      startTime := some (match s.startTime with
        | none => ts
        | some st => if ts < st then ts else st),
      endTime := some (match s.endTime with
        | none => ts
        | some en => if en < ts then ts else en) }
  | none => s

/-- `session`-typed entries override the identifier (`entry.id || session.id`:
an absent or empty id is falsy and keeps the old one). -/
def applyMeta (s : Session) (e : Entry) : Session :=
  if e.etype = "session" then
    { s with id := match e.id with
        | some i => if i = "" then s.id else i
        | none => s.id }
  else s

/-- `model_change` entries overwrite model and provider (last write wins). -/
def applyModelChange (s : Session) (e : Entry) : Session :=
  if e.etype = "model_change" then
    { s with model := e.modelId, provider := e.provider }
  else s

/-- The tool calls a message entry appends: one per `toolCall`-typed content
block, in block order (the block loop has no role check in the source). -/
def entryToolCalls (e : Entry) : List ToolCall :=
  match e.message with
  | some msg =>
    (msg.content.getD []).filterMap (fun b =>
      if b.btype = "toolCall" then
        some { id := b.id, name := b.name, timestamp := e.timestamp, result := none }
      else none)
  | none => []

/-- The message-processing step of `processSession`: append a `Message`,
add an assistant usage delta into the running totals, and push new
`ToolCall`s for the `toolCall` content blocks. -/
def applyMessage (s : Session) (e : Entry) : Session :=
  if e.etype = "message" then
    match e.message with
    | some msg =>
      let s1 : Session :=
        { s with messages := s.messages ++
            [{ role := msg.role, timestamp := e.timestamp,
               hasToolCalls := (msg.content.getD []).any (fun c => c.btype = "toolCall") }] }
      let s2 : Session :=
        if msg.role = "assistant" then
          match msg.usage with
          | some u =>
            { s1 with
              tokens :=
                { input := s1.tokens.input + u.input.getD 0,
                  output := s1.tokens.output + u.output.getD 0,
                  cacheRead := s1.tokens.cacheRead + u.cacheRead.getD 0,
                  cacheWrite := s1.tokens.cacheWrite + u.cacheWrite.getD 0,
                  total := s1.tokens.total + u.totalTokens.getD 0 },
              cost := match u.cost with
                | some c => if c = 0 then s1.cost else s1.cost + c
                | none => s1.cost }
          | none => s1
        else s1
      match msg.content with
      | some blocks =>
        { s2 with toolCalls := s2.toolCalls ++ blocks.filterMap (fun b =>
            if b.btype = "toolCall" then
              some { id := b.id, name := b.name, timestamp := e.timestamp, result := none }
            else none) }
      | none => s2
    | none => s
  else s

/-- `session.toolCalls.find(t => t.id === id)` followed by mutation of the
found call: set the result on the first call whose id matches. -/
def attachResult (tcs : List ToolCall) (tid : Option String) (r : ToolResult) :
    List ToolCall :=
  match tcs with
  | [] => []
  | tc :: rest =>
    if tc.id = tid then { tc with result := some r } :: rest
    else tc :: attachResult rest tid r

/-- The tool-result step of `processSession`: a `toolResult`-roled message
looks up the call by `toolCallId`; an unmatched id changes nothing. -/
def applyToolResult (s : Session) (e : Entry) : Session :=
  if e.etype = "message" then
    match e.message with
    | some msg =>
      if msg.role = "toolResult" then
        { s with toolCalls :=
            attachResult s.toolCalls msg.toolCallId ⟨msg.isError, e.timestamp⟩ }
      else s
    | none => s
  else s

/-- The session state after the message phase of one entry but before the
tool-result lookup (the source processes content blocks first). -/
def msgPhase (s : Session) (e : Entry) : Session :=
  applyMessage (applyModelChange (applyMeta (applyTimestamp s e) e) e) e

/-- One iteration of the entry loop of `processSession`, in source order. -/
def foldEntry (s : Session) (e : Entry) : Session :=
  applyToolResult (msgPhase s e) e

/-- `LogParser.processSession`: fold all decoded entries, then derive
`durationMs` when both endpoints are present. -/
def processSession (lines : List Entry) (filePath fileBase : String) : Session :=
  let s := lines.foldl foldEntry (initSession filePath fileBase)
  match s.startTime, s.endTime with
  | some st, some en => { s with durationMs := some (en - st) }
  | _, _ => s

/-- The partially built session after folding the first `n` decoded entries. -/
def sessionAfter (lines : List Entry) (filePath fileBase : String) (n : Nat) : Session :=
  (lines.take n).foldl foldEntry (initSession filePath fileBase)

/-- The usage delta an entry contributes to the running totals: present only
on `message` entries whose message has role `assistant` and carries `usage`. -/
def usageOf (e : Entry) : Option Usage :=
  if e.etype = "message" then
    e.message.bind (fun m => if m.role = "assistant" then m.usage else none)
  else none

/-- The usage deltas of a file's assistant messages, in order. -/
def assistantUsages (lines : List Entry) : List Usage :=
  lines.filterMap usageOf

/-- Token deltas an entry adds to the five token counters. -/
def tokensDelta (e : Entry) : TokenUsage :=
  match usageOf e with
  | some u => ⟨u.input.getD 0, u.output.getD 0, u.cacheRead.getD 0,
               u.cacheWrite.getD 0, u.totalTokens.getD 0⟩
  | none => ⟨0, 0, 0, 0, 0⟩

/-- Cost delta an entry adds to the running cost. -/
def costDelta (e : Entry) : ℚ :=
  match usageOf e with
  | some u => u.cost.getD 0
  | none => 0

/-- One row of `Analytics.getDailyStats`; `date` is the bucket's local
midnight instant (the ISO date string of the source, order-isomorphic). -/
structure DailyStat where
  date : Int
  sessions : Nat
  messages : Nat
  toolCalls : Nat
  tokens : ℚ
  cost : ℚ
  userMessages : Nat
  assistantMessages : Nat
deriving DecidableEq

/-- The all-zero daily row (used as the `getD` fallback in statements). -/
def zeroStat : DailyStat := ⟨0, 0, 0, 0, 0, 0, 0, 0⟩

/-- The record returned by `Analytics.getWeeklySummary`. -/
structure WeeklySummary where
  totalSessions : Nat
  totalMessages : Nat
  totalToolCalls : Nat
  totalTokens : ℚ
  totalCost : ℚ
  avgTokensPerSession : Int
  avgMessagesPerSession : Int
  topTools : List (String × Nat)
  peakHour : Nat
  hourlyActivity : List Nat
  models : List String
  toolErrors : Nat
deriving DecidableEq

/-- The filter test of `Analytics.filterByDays`:
`s.startTime && s.startTime >= cutoff` with `cutoff = now - days` days.
The source has no upper bound. -/
def inWindow (now : Int) (days : Nat) (s : Session) : Bool :=
  match s.startTime with
  | some t => decide (now - (days : Int) * DAY ≤ t)
  | none => false

/-- `Analytics.filterByDays`. -/
def filterByDays (sessions : List Session) (now : Int) (days : Nat) :
    List Session :=
  sessions.filter (inWindow now days)

/-- Does instant `t` fall in day bucket `i` (the interval
`[date, nextDate)` for the midnight `i` days before `now`)? -/
def inBucket (now : Int) (i : Nat) (t : Int) : Bool :=
  decide (midnight (now - (i : Int) * DAY) ≤ t ∧
    t < midnight (now - (i : Int) * DAY) + DAY)

/-- The filter test inside the `getDailyStats` loop. -/
def inBucketS (now : Int) (i : Nat) (s : Session) : Bool :=
  match s.startTime with
  | some t => inBucket now i t
  | none => false

/-- The sessions matched by day bucket `i`. -/
def bucketSessions (sessions : List Session) (now : Int) (i : Nat) :
    List Session :=
  sessions.filter (inBucketS now i)

/-- The row the `getDailyStats` loop pushes for index `i`. -/
def dayRow (sessions : List Session) (now : Int) (i : Nat) : DailyStat :=
  { date := midnight (now - (i : Int) * DAY),
    sessions := (bucketSessions sessions now i).length,
    messages := sumBy (bucketSessions sessions now i) (fun s => s.messages.length),
    toolCalls := sumBy (bucketSessions sessions now i) (fun s => s.toolCalls.length),
    tokens := sumBy (bucketSessions sessions now i) (fun s => s.tokens.total),
    cost := sumBy (bucketSessions sessions now i) (fun s => s.cost),
    userMessages := sumBy (bucketSessions sessions now i)
      (fun s => (s.messages.filter (fun m => m.role = "user")).length),
    assistantMessages := sumBy (bucketSessions sessions now i)
      (fun s => (s.messages.filter (fun m => m.role = "assistant")).length) }

/-- `Analytics.getDailyStats`: push a row for each `i < days` (today first),
then reverse so the oldest bucket comes first. -/
def getDailyStats (sessions : List Session) (now : Int) (days : Nat) :
    List DailyStat :=
  ((List.range days).map (dayRow sessions now)).reverse

/-- `toolCallCounts[name] = (toolCallCounts[name] || 0) + 1` on an object
whose keys iterate in first-insertion order. -/
def bumpCount (counts : List (String × Nat)) (name : String) :
    List (String × Nat) :=
  if counts.any (fun p => p.1 = name) then
    counts.map (fun p => if p.1 = name then (p.1, p.2 + 1) else p)
  else counts ++ [(name, 1)]

/-- Insert keeping a descending-by-count list sorted, placing the new pair
after existing pairs with an equal count (stability of `Array.sort`). -/
def insertByCount (p : String × Nat) : List (String × Nat) → List (String × Nat)
  | [] => [p]
  | q :: rest => if p.2 ≤ q.2 then q :: insertByCount p rest else p :: q :: rest

/-- Stable sort descending by count (models
`.sort((a, b) => b[1] - a[1])`, which is stable in ES2019+). -/
def sortByCountDesc (l : List (String × Nat)) : List (String × Nat) :=
  l.foldl (fun acc p => insertByCount p acc) []

/-- Increment slot `i` of the hourly histogram. -/
def bumpAt (l : List Nat) (i : Nat) : List Nat :=
  l.set i (l.getD i 0 + 1)

/-- Keep the first occurrence of each element
(models `[...new Set(xs)]`, which preserves insertion order). -/
def dedupFirst (l : List String) : List String :=
  l.foldl (fun acc m => if acc.contains m then acc else acc ++ [m]) []

/-- The `toolCallCounts` histogram of `getWeeklySummary`: per-tool call
counts in first-seen key order. -/
def toolCounts (fs : List Session) : List (String × Nat) :=
  fs.foldl (fun acc s => s.toolCalls.foldl (fun a tc => bumpCount a tc.name) acc) []

/-- The `hourlyActivity` histogram of `getWeeklySummary`: 24 buckets,
one increment per session with a `startTime`. -/
def hourlyOf (fs : List Session) : List Nat :=
  fs.foldl
    (fun h s => match s.startTime with
      | some t => bumpAt h (hourOf t)
      | none => h)
    (List.replicate 24 0)

/-- `Analytics.getWeeklySummary`. -/
def getWeeklySummary (sessions : List Session) (now : Int) (days : Nat) :
    WeeklySummary :=
  let fs := filterByDays sessions now days
  let counts := toolCounts fs
  let hourly := hourlyOf fs
  let maxAct := hourly.foldl Nat.max 0
  { totalSessions := fs.length,
    totalMessages := sumBy fs (fun s => s.messages.length),
    totalToolCalls := sumBy fs (fun s => s.toolCalls.length),
    totalTokens := sumBy fs (fun s => s.tokens.total),
    totalCost := sumBy fs (fun s => s.cost),
    avgTokensPerSession :=
      if 0 < fs.length then
        jsRound (sumBy fs (fun s => s.tokens.total) / (fs.length : ℚ))
      else 0,
    avgMessagesPerSession :=
      if 0 < fs.length then
        jsRound ((sumBy fs (fun s => s.messages.length) : ℚ) / (fs.length : ℚ))
      else 0,
    topTools := (sortByCountDesc counts).take 10,
    peakHour := hourly.findIdx (fun x => x = maxAct),
    hourlyActivity := hourly,
    models := dedupFirst (fs.filterMap (fun s =>
      match s.model with
      | some m => if m = "" then none else some m
      | none => none)),
    toolErrors := sumBy fs (fun s =>
      (s.toolCalls.filter (fun tc =>
        match tc.result with
        | some r => r.isError
        | none => false)).length) }

inductive Severity where
  | low
  | medium
  | high
deriving DecidableEq

inductive AnomalyType where
  | token_spike
  | cost_spike
  | high_error_rate
  | unusual_hours
  | activity_gap
  | tool_dominance
  | high_tool_frequency
deriving DecidableEq

/-- A finding of the anomaly detector.  The display message string is
omitted; the remaining source fields are kept (`none` models an absent
optional field). -/
structure Anomaly where
  atype : AnomalyType
  severity : Severity
  date : Option Int
  value : ℚ
  threshold : Option ℚ
  tool : Option String
deriving DecidableEq

/-- Tool error rate of a summary, guarded at zero total calls
(`detectToolErrors` in `anomaly.js`). -/
def errorRate (w : WeeklySummary) : ℚ :=
  if 0 < w.totalToolCalls then (w.toolErrors : ℚ) / (w.totalToolCalls : ℚ)
  else 0

/-- Activity in hour buckets 0 to 5 (`hourlyActivity.slice(0, 6).reduce`). -/
def nightActivity (w : WeeklySummary) : Nat :=
  sumBy (w.hourlyActivity.take 6) id

/-- Total activity over all 24 hour buckets. -/
def totalActivity (w : WeeklySummary) : Nat :=
  sumBy w.hourlyActivity id

/-- Night-activity ratio, guarded at zero total activity
(`detectUnusualHours` in `anomaly.js`). -/
def nightRatio (w : WeeklySummary) : ℚ :=
  if 0 < totalActivity w then (nightActivity w : ℚ) / (totalActivity w : ℚ)
  else 0

/-- Per-tool dominance ratio.  The source divides WITHOUT a zero guard
(`count / weeklyStats.totalToolCalls` in `detectHighToolUsage`); the
denominator is proved positive whenever the loop runs on real summaries. -/
def dominanceRatio (w : WeeklySummary) (count : Nat) : ℚ :=
  (count : ℚ) / (w.totalToolCalls : ℚ)

/-- Tool calls per session, guarded at zero sessions. -/
def toolsPerSession (w : WeeklySummary) : ℚ :=
  if 0 < w.totalSessions then
    (w.totalToolCalls : ℚ) / (w.totalSessions : ℚ)
  else 0

/-- `AnomalyDetector.detectTokenSpikes`. -/
def detectTokenSpikes (dailyStats : List DailyStat) (weeklyStats : WeeklySummary) :
    List Anomaly :=
  dailyStats.filterMap (fun day =>
    if weeklyStats.totalTokens / 7 * 3 < day.tokens ∧ 10000 < day.tokens then
      some ⟨AnomalyType.token_spike, Severity.medium, some day.date, day.tokens,
            some (weeklyStats.totalTokens / 7 * 3), none⟩
    else none)

/-- `AnomalyDetector.detectToolErrors`. -/
def detectToolErrors (weeklyStats : WeeklySummary) : List Anomaly :=
  if (1 : ℚ)/10 < errorRate weeklyStats ∧ 5 < weeklyStats.toolErrors then
    [⟨AnomalyType.high_error_rate, Severity.high, none, errorRate weeklyStats,
      some ((1 : ℚ)/10), none⟩]
  else []

/-- `AnomalyDetector.detectUnusualHours`. -/
def detectUnusualHours (weeklyStats : WeeklySummary) : List Anomaly :=
  if (3 : ℚ)/10 < nightRatio weeklyStats ∧ 5 < nightActivity weeklyStats then
    [⟨AnomalyType.unusual_hours, Severity.low, none, nightRatio weeklyStats,
      some ((3 : ℚ)/10), none⟩]
  else []

/-- `AnomalyDetector.detectCostSpikes`. -/
def detectCostSpikes (dailyStats : List DailyStat) (weeklyStats : WeeklySummary) :
    List Anomaly :=
  dailyStats.filterMap (fun day =>
    if weeklyStats.totalCost / 7 * 3 < day.cost ∧ (1 : ℚ)/2 < day.cost then
      some ⟨AnomalyType.cost_spike, Severity.high, some day.date, day.cost,
            some (weeklyStats.totalCost / 7 * 3), none⟩
    else none)

/-- The finding `detectActivityGaps` pushes for a zero day with current
consecutive-zero count `cz`. -/
def gapAnomaly (day : DailyStat) (cz : Nat) : Anomaly :=
  ⟨AnomalyType.activity_gap, Severity.low, some day.date, (cz : ℚ), none, none⟩

/-- One iteration of the `detectActivityGaps` loop: the accumulator is the
findings so far and the `consecutiveZero` counter. -/
def gapStep (acc : List Anomaly × Nat) (day : DailyStat) : List Anomaly × Nat :=
  if day.sessions = 0 then
    let cz := acc.2 + 1
    (if 2 ≤ cz then acc.1 ++ [gapAnomaly day cz] else acc.1, cz)
  else (acc.1, 0)

/-- `AnomalyDetector.detectActivityGaps`: walk the daily rows keeping a
consecutive-zero-day counter, pushing a finding each time it is at least 2. -/
def detectActivityGaps (dailyStats : List DailyStat) : List Anomaly :=
  (dailyStats.foldl gapStep ([], 0)).1

/-- `AnomalyDetector.detectHighToolUsage`: the dominance loop over
`topTools`, then the call-frequency check. -/
def detectHighToolUsage (weeklyStats : WeeklySummary) : List Anomaly :=
  (weeklyStats.topTools.filterMap (fun p =>
    if (1 : ℚ)/2 < dominanceRatio weeklyStats p.2 ∧ 50 < p.2 then
      some ⟨AnomalyType.tool_dominance, Severity.low, none,
            dominanceRatio weeklyStats p.2, none, some p.1⟩
    else none)) ++
  (if (100 : ℚ) < toolsPerSession weeklyStats then
    [⟨AnomalyType.high_tool_frequency, Severity.medium, none,
      toolsPerSession weeklyStats, some 100, none⟩]
  else [])

/-- `AnomalyDetector.detect`: evaluate the rule battery over the 7-day
aggregates and push the findings in source order. -/
def detect (sessions : List Session) (now : Int) : List Anomaly :=
  let weeklyStats := getWeeklySummary sessions now 7
  let dailyStats := getDailyStats sessions now 7
  ((((([] ++ detectTokenSpikes dailyStats weeklyStats)
    ++ detectToolErrors weeklyStats)
    ++ detectUnusualHours weeklyStats)
    ++ detectCostSpikes dailyStats weeklyStats)
    ++ detectActivityGaps dailyStats)
    ++ detectHighToolUsage weeklyStats

/-- The hot-path accumulator of `Watcher` (`this.stats`). -/
structure RunningStats where
  messages : Nat
  toolCalls : Nat
  tokens : ℚ
  errors : Nat
  lastActivity : Option Int
deriving DecidableEq

/-- `Watcher.processEntry`: fold one decoded line into the running
counters.  `fallbackNow` models the `new Date()` used when the entry has
no timestamp. -/
def watchProcessEntry (stats : RunningStats) (e : Entry) (fallbackNow : Int) :
    RunningStats :=
  let stats := { stats with lastActivity := some (e.timestamp.getD fallbackNow) }
  if e.etype = "message" then
    match e.message with
    | some msg =>
      let stats :=
        if msg.role = "user" then { stats with messages := stats.messages + 1 }
        else stats
      let stats :=
        if msg.role = "assistant" then
          let stats := match msg.content with
            | some blocks =>
              { stats with toolCalls := stats.toolCalls +
                  (blocks.filter (fun b => b.btype = "toolCall")).length }
            | none => stats
          match msg.usage with
          | some u => { stats with tokens := stats.tokens + u.totalTokens.getD 0 }
          | none => stats
        else stats
      if msg.role = "toolResult" ∧ msg.isError then
        { stats with errors := stats.errors + 1 }
      else stats
    | none => stats
  else stats

/-- Is this entry a decoded message event with role `user`? -/
def isUserMessage (e : Entry) : Bool :=
  e.etype = "message" &&
    (match e.message with
     | some m => m.role = "user"
     | none => false)

/-- Is this entry a decoded message event (of any role)?  The cold path
appends a `Message` exactly for these. -/
def isMessageEvent (e : Entry) : Bool :=
  e.etype = "message" && e.message.isSome

/-- Pointwise sum of token usages. -/
def addTokens (a b : TokenUsage) : TokenUsage :=
  ⟨a.input + b.input, a.output + b.output, a.cacheRead + b.cacheRead,
   a.cacheWrite + b.cacheWrite, a.total + b.total⟩

lemma addTokens_zero (t : TokenUsage) : addTokens t ⟨0, 0, 0, 0, 0⟩ = t := by
  cases t; simp [addTokens]

lemma applyTimestamp_tokens (s : Session) (e : Entry) :
    (applyTimestamp s e).tokens = s.tokens := by
  unfold applyTimestamp; cases e.timestamp <;> rfl

lemma applyTimestamp_cost (s : Session) (e : Entry) :
    (applyTimestamp s e).cost = s.cost := by
  unfold applyTimestamp; cases e.timestamp <;> rfl

lemma applyTimestamp_messages (s : Session) (e : Entry) :
    (applyTimestamp s e).messages = s.messages := by
  unfold applyTimestamp; cases e.timestamp <;> rfl

lemma applyTimestamp_toolCalls (s : Session) (e : Entry) :
    (applyTimestamp s e).toolCalls = s.toolCalls := by
  unfold applyTimestamp; cases e.timestamp <;> rfl

lemma applyMeta_tokens (s : Session) (e : Entry) :
    (applyMeta s e).tokens = s.tokens := by
  unfold applyMeta; split <;> rfl

lemma applyMeta_cost (s : Session) (e : Entry) :
    (applyMeta s e).cost = s.cost := by
  unfold applyMeta; split <;> rfl

lemma applyMeta_messages (s : Session) (e : Entry) :
    (applyMeta s e).messages = s.messages := by
  unfold applyMeta; split <;> rfl

lemma applyMeta_toolCalls (s : Session) (e : Entry) :
    (applyMeta s e).toolCalls = s.toolCalls := by
  unfold applyMeta; split <;> rfl

lemma applyMeta_startTime (s : Session) (e : Entry) :
    (applyMeta s e).startTime = s.startTime := by
  unfold applyMeta; split <;> rfl

lemma applyMeta_endTime (s : Session) (e : Entry) :
    (applyMeta s e).endTime = s.endTime := by
  unfold applyMeta; split <;> rfl

lemma applyModelChange_tokens (s : Session) (e : Entry) :
    (applyModelChange s e).tokens = s.tokens := by
  unfold applyModelChange; split <;> rfl

lemma applyModelChange_cost (s : Session) (e : Entry) :
    (applyModelChange s e).cost = s.cost := by
  unfold applyModelChange; split <;> rfl

lemma applyModelChange_messages (s : Session) (e : Entry) :
    (applyModelChange s e).messages = s.messages := by
  unfold applyModelChange; split <;> rfl

lemma applyModelChange_toolCalls (s : Session) (e : Entry) :
    (applyModelChange s e).toolCalls = s.toolCalls := by
  unfold applyModelChange; split <;> rfl

lemma applyModelChange_startTime (s : Session) (e : Entry) :
    (applyModelChange s e).startTime = s.startTime := by
  unfold applyModelChange; split <;> rfl

lemma applyModelChange_endTime (s : Session) (e : Entry) :
    (applyModelChange s e).endTime = s.endTime := by
  unfold applyModelChange; split <;> rfl

lemma applyToolResult_tokens (s : Session) (e : Entry) :
    (applyToolResult s e).tokens = s.tokens := by
  unfold applyToolResult
  split
  · cases e.message with
    | none => rfl
    | some msg => dsimp only; split <;> rfl
  · rfl

lemma applyToolResult_cost (s : Session) (e : Entry) :
    (applyToolResult s e).cost = s.cost := by
  unfold applyToolResult
  split
  · cases e.message with
    | none => rfl
    | some msg => dsimp only; split <;> rfl
  · rfl

lemma applyToolResult_messages (s : Session) (e : Entry) :
    (applyToolResult s e).messages = s.messages := by
  unfold applyToolResult
  split
  · cases e.message with
    | none => rfl
    | some msg => dsimp only; split <;> rfl
  · rfl

lemma applyToolResult_startTime (s : Session) (e : Entry) :
    (applyToolResult s e).startTime = s.startTime := by
  unfold applyToolResult
  split
  · cases e.message with
    | none => rfl
    | some msg => dsimp only; split <;> rfl
  · rfl

lemma applyToolResult_endTime (s : Session) (e : Entry) :
    (applyToolResult s e).endTime = s.endTime := by
  unfold applyToolResult
  split
  · cases e.message with
    | none => rfl
    | some msg => dsimp only; split <;> rfl
  · rfl

lemma applyMessage_tokens (s : Session) (e : Entry) :
    (applyMessage s e).tokens = addTokens s.tokens (tokensDelta e) := by
  unfold applyMessage tokensDelta usageOf
  by_cases he : e.etype = "message"
  · simp only [he, if_pos, reduceIte]
    cases hm : e.message with
    | none => simp [addTokens_zero]
    | some msg =>
      by_cases hr : msg.role = "assistant"
      · cases hu : msg.usage with
        | none =>
          cases hc : msg.content <;> simp [hc, hr, hu, addTokens_zero]
        | some u =>
          cases hc : msg.content <;> simp [hc, hr, hu, addTokens]
      · cases hc : msg.content <;> simp [hc, hr, addTokens_zero]
  · simp [he, addTokens_zero]

lemma applyMessage_cost (s : Session) (e : Entry) :
    (applyMessage s e).cost = s.cost + costDelta e := by
  unfold applyMessage costDelta usageOf
  by_cases he : e.etype = "message"
  · simp only [he, if_pos, reduceIte]
    cases hm : e.message with
    | none => simp
    | some msg =>
      by_cases hr : msg.role = "assistant"
      · cases hu : msg.usage with
        | none => cases hc : msg.content <;> simp [hc, hr, hu]
        | some u =>
          cases hcost : u.cost with
          | none => cases hc : msg.content <;> simp [hc, hr, hu, hcost]
          | some c =>
            by_cases hz : c = 0
            · cases hc : msg.content <;> simp [hc, hr, hu, hcost, hz]
            · cases hc : msg.content <;> simp [hc, hr, hu, hcost, hz]
      · cases hc : msg.content <;> simp [hc, hr]
  · simp [he]

lemma applyMessage_messages_length (s : Session) (e : Entry) :
    (applyMessage s e).messages.length =
      s.messages.length + (if isMessageEvent e then 1 else 0) := by
  unfold applyMessage isMessageEvent
  by_cases he : e.etype = "message"
  · simp only [he, if_pos, reduceIte]
    cases hm : e.message with
    | none => simp
    | some msg =>
      by_cases hr : msg.role = "assistant"
      · cases hu : msg.usage with
        | none => cases hc : msg.content <;> simp [hc, hr, hu]
        | some u => cases hc : msg.content <;> simp [hc, hr, hu]
      · cases hc : msg.content <;> simp [hc, hr]
  · simp [he]

lemma applyMessage_startTime (s : Session) (e : Entry) :
    (applyMessage s e).startTime = s.startTime := by
  unfold applyMessage
  by_cases he : e.etype = "message"
  · simp only [he, if_pos, reduceIte]
    cases hm : e.message with
    | none => rfl
    | some msg =>
      by_cases hr : msg.role = "assistant"
      · cases hu : msg.usage with
        | none => cases hc : msg.content <;> simp [hc, hr, hu]
        | some u => cases hc : msg.content <;> simp [hc, hr, hu]
      · cases hc : msg.content <;> simp [hc, hr]
  · simp [he]

lemma applyMessage_endTime (s : Session) (e : Entry) :
    (applyMessage s e).endTime = s.endTime := by
  unfold applyMessage
  by_cases he : e.etype = "message"
  · simp only [he, if_pos, reduceIte]
    cases hm : e.message with
    | none => rfl
    | some msg =>
      by_cases hr : msg.role = "assistant"
      · cases hu : msg.usage with
        | none => cases hc : msg.content <;> simp [hc, hr, hu]
        | some u => cases hc : msg.content <;> simp [hc, hr, hu]
      · cases hc : msg.content <;> simp [hc, hr]
  · simp [he]

lemma applyMessage_toolCalls (s : Session) (e : Entry) :
    (applyMessage s e).toolCalls = s.toolCalls ++
      (if e.etype = "message" then entryToolCalls e else []) := by
  unfold applyMessage entryToolCalls
  by_cases he : e.etype = "message"
  · simp only [he, if_pos, reduceIte]
    cases hm : e.message with
    | none => simp
    | some msg =>
      by_cases hr : msg.role = "assistant"
      · cases hu : msg.usage with
        | none => cases hc : msg.content <;> simp [hc, hr, hu]
        | some u => cases hc : msg.content <;> simp [hc, hr, hu]
      · cases hc : msg.content <;> simp [hc, hr]
  · simp [he]

lemma msgPhase_tokens (s : Session) (e : Entry) :
    (msgPhase s e).tokens = addTokens s.tokens (tokensDelta e) := by
  unfold msgPhase
  rw [applyMessage_tokens, applyModelChange_tokens, applyMeta_tokens,
    applyTimestamp_tokens]

lemma msgPhase_cost (s : Session) (e : Entry) :
    (msgPhase s e).cost = s.cost + costDelta e := by
  unfold msgPhase
  rw [applyMessage_cost, applyModelChange_cost, applyMeta_cost,
    applyTimestamp_cost]

lemma msgPhase_messages_length (s : Session) (e : Entry) :
    (msgPhase s e).messages.length =
      s.messages.length + (if isMessageEvent e then 1 else 0) := by
  unfold msgPhase
  rw [applyMessage_messages_length, applyModelChange_messages,
    applyMeta_messages, applyTimestamp_messages]

lemma msgPhase_startTime (s : Session) (e : Entry) :
    (msgPhase s e).startTime = (applyTimestamp s e).startTime := by
  unfold msgPhase
  rw [applyMessage_startTime, applyModelChange_startTime, applyMeta_startTime]

lemma msgPhase_endTime (s : Session) (e : Entry) :
    (msgPhase s e).endTime = (applyTimestamp s e).endTime := by
  unfold msgPhase
  rw [applyMessage_endTime, applyModelChange_endTime, applyMeta_endTime]

lemma msgPhase_toolCalls (s : Session) (e : Entry) :
    (msgPhase s e).toolCalls = s.toolCalls ++
      (if e.etype = "message" then entryToolCalls e else []) := by
  unfold msgPhase
  rw [applyMessage_toolCalls, applyModelChange_toolCalls, applyMeta_toolCalls,
    applyTimestamp_toolCalls]

lemma foldEntry_tokens (s : Session) (e : Entry) :
    (foldEntry s e).tokens = addTokens s.tokens (tokensDelta e) := by
  unfold foldEntry
  rw [applyToolResult_tokens, msgPhase_tokens]

lemma foldEntry_cost (s : Session) (e : Entry) :
    (foldEntry s e).cost = s.cost + costDelta e := by
  unfold foldEntry
  rw [applyToolResult_cost, msgPhase_cost]

lemma foldEntry_messages_length (s : Session) (e : Entry) :
    (foldEntry s e).messages.length =
      s.messages.length + (if isMessageEvent e then 1 else 0) := by
  unfold foldEntry
  rw [applyToolResult_messages, msgPhase_messages_length]

lemma foldEntry_startTime (s : Session) (e : Entry) :
    (foldEntry s e).startTime = (applyTimestamp s e).startTime := by
  unfold foldEntry
  rw [applyToolResult_startTime, msgPhase_startTime]

lemma foldEntry_endTime (s : Session) (e : Entry) :
    (foldEntry s e).endTime = (applyTimestamp s e).endTime := by
  unfold foldEntry
  rw [applyToolResult_endTime, msgPhase_endTime]

lemma attachResult_length (tcs : List ToolCall) (tid : Option String)
    (r : ToolResult) : (attachResult tcs tid r).length = tcs.length := by
  induction tcs with
  | nil => rfl
  | cons tc rest ih =>
    unfold attachResult
    split
    · simp
    · simp [ih]

lemma attachResult_of_no_match (tcs : List ToolCall) (tid : Option String)
    (r : ToolResult) (h : ∀ tc ∈ tcs, tc.id ≠ tid) :
    attachResult tcs tid r = tcs := by
  induction tcs with
  | nil => rfl
  | cons tc rest ih =>
    unfold attachResult
    split
    · exact absurd (by assumption) (h tc (List.mem_cons_self tc rest))
    · rw [ih (fun x hx => h x (List.mem_cons_of_mem tc hx))]

lemma attachResult_attaches (tcs : List ToolCall) (tid : Option String)
    (r : ToolResult) (h : ∃ tc ∈ tcs, tc.id = tid) :
    ∃ tc ∈ attachResult tcs tid r, tc.id = tid ∧ tc.result = some r := by
  induction tcs with
  | nil => simp at h
  | cons tc rest ih =>
    unfold attachResult
    by_cases hid : tc.id = tid
    · refine ⟨{ tc with result := some r }, ?_, hid, rfl⟩
      simp [hid]
    · simp only [hid, reduceIte]
      obtain ⟨x, hx, hxid⟩ := h
      rcases List.mem_cons.1 hx with rfl | hx2
      · exact absurd hxid hid
      · obtain ⟨y, hy, hyid, hyr⟩ := ih ⟨x, hx2, hxid⟩
        exact ⟨y, List.mem_cons_of_mem tc hy, hyid, hyr⟩

lemma applyToolResult_toolCalls_of_toolResult (s : Session) (e : Entry)
    (msg : MessageObj) (he : e.etype = "message") (hm : e.message = some msg)
    (hr : msg.role = "toolResult") :
    (applyToolResult s e).toolCalls =
      attachResult s.toolCalls msg.toolCallId ⟨msg.isError, e.timestamp⟩ := by
  unfold applyToolResult
  simp [he, hm, hr]

lemma processSession_tokens (lines : List Entry) (filePath fileBase : String) :
    (processSession lines filePath fileBase).tokens =
      (lines.foldl foldEntry (initSession filePath fileBase)).tokens := by
  unfold processSession
  dsimp only
  split <;> rfl

lemma processSession_cost (lines : List Entry) (filePath fileBase : String) :
    (processSession lines filePath fileBase).cost =
      (lines.foldl foldEntry (initSession filePath fileBase)).cost := by
  unfold processSession
  dsimp only
  split <;> rfl

lemma foldl_tokens_total (lines : List Entry) (s : Session) :
    ((lines.foldl foldEntry s).tokens).total =
      s.tokens.total + sumBy lines (fun e => (tokensDelta e).total) := by
  induction lines generalizing s with
  | nil => simp [sumBy]
  | cons e rest ih =>
    rw [List.foldl_cons, ih (foldEntry s e), foldEntry_tokens]
    simp [sumBy, addTokens, add_assoc]

lemma foldl_cost (lines : List Entry) (s : Session) :
    (lines.foldl foldEntry s).cost = s.cost + sumBy lines costDelta := by
  induction lines generalizing s with
  | nil => simp [sumBy]
  | cons e rest ih =>
    rw [List.foldl_cons, ih (foldEntry s e), foldEntry_cost]
    simp [sumBy, add_assoc]

lemma tokensDelta_total_eq (e : Entry) :
    (tokensDelta e).total =
      match usageOf e with
      | some u => u.totalTokens.getD 0
      | none => 0 := by
  unfold tokensDelta
  cases usageOf e <;> rfl

lemma costDelta_eq (e : Entry) :
    costDelta e =
      match usageOf e with
      | some u => u.cost.getD 0
      | none => 0 := by
  unfold costDelta
  cases usageOf e <;> rfl

lemma sum_tokensDelta_eq_sum_usages (lines : List Entry) :
    sumBy lines (fun e => (tokensDelta e).total) =
      sumBy (assistantUsages lines) (fun u => u.totalTokens.getD 0) := by
  induction lines with
  | nil => rfl
  | cons e rest ih =>
    unfold assistantUsages at ih ⊢
    rw [List.filterMap_cons]
    have hd := tokensDelta_total_eq e
    cases hu : usageOf e with
    | none =>
      rw [hu] at hd
      simp only [sumBy, List.map_cons, List.sum_cons, hd] at ih ⊢
      rw [zero_add, ih]
    | some u =>
      rw [hu] at hd
      simp only [sumBy, List.map_cons, List.sum_cons, hd] at ih ⊢
      rw [ih]

lemma sum_costDelta_eq_sum_usages (lines : List Entry) :
    sumBy lines costDelta =
      sumBy (assistantUsages lines) (fun u => u.cost.getD 0) := by
  induction lines with
  | nil => rfl
  | cons e rest ih =>
    unfold assistantUsages at ih ⊢
    rw [List.filterMap_cons]
    have hd := costDelta_eq e
    cases hu : usageOf e with
    | none =>
      rw [hu] at hd
      simp only [sumBy, List.map_cons, List.sum_cons, hd] at ih ⊢
      rw [zero_add, ih]
    | some u =>
      rw [hu] at hd
      simp only [sumBy, List.map_cons, List.sum_cons, hd] at ih ⊢
      rw [ih]

/-- C4: for a well-formed session file whose assistant messages each carry a
usage delta, the built Session has `tokens.total` equal to the sum of those
deltas' total-token fields and `cost` equal to the sum of their cost fields. -/
theorem processSession_totals_eq_sum_deltas (lines : List Entry)
    (filePath fileBase : String)
    (_h : ∀ e ∈ lines, e.etype = "message" → ∀ m, e.message = some m →
      m.role = "assistant" → m.usage.isSome) :
    (processSession lines filePath fileBase).tokens.total =
      sumBy (assistantUsages lines) (fun u => u.totalTokens.getD 0) ∧
    (processSession lines filePath fileBase).cost =
      sumBy (assistantUsages lines) (fun u => u.cost.getD 0) := by
  constructor
  · rw [processSession_tokens, foldl_tokens_total, sum_tokensDelta_eq_sum_usages]
    simp [initSession]
  · rw [processSession_cost, foldl_cost, sum_costDelta_eq_sum_usages]
    simp [initSession]

/-- Concrete two-message file for the C4 witness: one assistant message with
a usage delta of 9 total tokens and cost 2, and one user message. -/
def wit4a : Entry :=
  ⟨some 100, "message", none, none, none,
   some ⟨"assistant", none, some ⟨some 1, some 2, none, none, some 9, some 2⟩,
         none, false⟩⟩

def wit4b : Entry :=
  ⟨some 200, "message", none, none, none,
   some ⟨"user", none, none, none, false⟩⟩

/-- Witness for C4 at a concrete two-entry file. -/
theorem processSession_totals_witness :
    (processSession [wit4a, wit4b] "f.jsonl" "f").tokens.total = 9 ∧
    (processSession [wit4a, wit4b] "f.jsonl" "f").cost = 2 := by
  have h := processSession_totals_eq_sum_deltas [wit4a, wit4b] "f.jsonl" "f"
    (by
      intro e he hty m hm hr
      simp only [List.mem_cons, List.mem_singleton] at he
      rcases he with rfl | rfl | h0
      · simp only [wit4a, Option.some.injEq] at hm
        rw [← hm]
        rfl
      · simp only [wit4b, Option.some.injEq] at hm
        rw [← hm] at hr
        simp at hr
      · exact absurd h0 (List.not_mem_nil e))
  refine ⟨h.1.trans ?_, h.2.trans ?_⟩ <;>
    simp [sumBy, assistantUsages, usageOf, wit4a, wit4b]

/-- C5 (amended): a tool-result event attaches a Result to the ToolCall with
the matching id if and only if such a call is present when the result is
processed — produced by an earlier event or by a tool-invocation block of the
SAME event (the source pushes content blocks before the result lookup).
With no matching call the event leaves the ToolCall list unchanged, and the
ToolCall count is never changed by the result lookup. -/
theorem toolResult_attaches_iff_call_present (s : Session) (e : Entry)
    (msg : MessageObj) (he : e.etype = "message") (hm : e.message = some msg)
    (hr : msg.role = "toolResult") :
    (msgPhase s e).toolCalls = s.toolCalls ++ entryToolCalls e ∧
    ((∀ tc ∈ (msgPhase s e).toolCalls, tc.id ≠ msg.toolCallId) →
      (foldEntry s e).toolCalls = (msgPhase s e).toolCalls) ∧
    ((∃ tc ∈ (msgPhase s e).toolCalls, tc.id = msg.toolCallId) →
      ∃ tc ∈ (foldEntry s e).toolCalls, tc.id = msg.toolCallId ∧
        tc.result = some ⟨msg.isError, e.timestamp⟩) ∧
    (foldEntry s e).toolCalls.length = (msgPhase s e).toolCalls.length := by
  have hfold : (foldEntry s e).toolCalls =
      attachResult (msgPhase s e).toolCalls msg.toolCallId
        ⟨msg.isError, e.timestamp⟩ :=
    applyToolResult_toolCalls_of_toolResult (msgPhase s e) e msg he hm hr
  refine ⟨?_, ?_, ?_, ?_⟩
  · rw [msgPhase_toolCalls]
    simp [he]
  · intro hno
    rw [hfold, attachResult_of_no_match _ _ _ hno]
  · intro hex
    rw [hfold]
    exact attachResult_attaches _ _ _ hex
  · rw [hfold, attachResult_length]

/-- A single decoded event that is both a tool-result message and carries a
tool-invocation block with the SAME id it references. -/
def cex5Entry : Entry :=
  ⟨none, "message", none, none, none,
   some ⟨"toolResult", some [⟨"toolCall", some "x", "t"⟩], none, some "x", true⟩⟩

/-- C5 counterexample: no ToolCall with id x exists from any earlier event
(the session starts empty), yet folding the single event attaches a Result
to the call with id x, refuting the claimed only-if direction and the
claimed no-op. -/
theorem toolResult_same_event_attach_cex :
    (initSession "f.jsonl" "f").toolCalls = [] ∧
    (foldEntry (initSession "f.jsonl" "f") cex5Entry).toolCalls =
      [⟨some "x", "t", none, some ⟨true, none⟩⟩] := by
  constructor
  · rfl
  · decide

/-- Concrete session and entry for the C5 witness: a call with id y from an
earlier event, then a tool-result event referencing y. -/
def wit5Sess : Session :=
  { initSession "g.jsonl" "g" with toolCalls := [⟨some "y", "w", some 5, none⟩] }

def wit5Msg : MessageObj := ⟨"toolResult", none, none, some "y", false⟩

def wit5Entry : Entry := ⟨some 10, "message", none, none, none, some wit5Msg⟩

/-- Witness for C5 at a concrete session and tool-result event. -/
theorem toolResult_attaches_witness :
    ∃ tc ∈ (foldEntry wit5Sess wit5Entry).toolCalls,
      tc.id = some "y" ∧ tc.result = some ⟨false, some 10⟩ := by
  have h := toolResult_attaches_iff_call_present wit5Sess wit5Entry wit5Msg
    rfl rfl rfl
  exact h.2.2.1 (by decide)

/-- All usage fields a decoded event would add are non-negative. -/
def usageNonNeg (e : Entry) : Prop :=
  match usageOf e with
  | some u =>
    0 ≤ u.input.getD 0 ∧ 0 ≤ u.output.getD 0 ∧ 0 ≤ u.cacheRead.getD 0 ∧
    0 ≤ u.cacheWrite.getD 0 ∧ 0 ≤ u.totalTokens.getD 0 ∧ 0 ≤ u.cost.getD 0
  | none => True

lemma deltas_nonneg (e : Entry) (h : usageNonNeg e) :
    0 ≤ (tokensDelta e).input ∧ 0 ≤ (tokensDelta e).output ∧
    0 ≤ (tokensDelta e).cacheRead ∧ 0 ≤ (tokensDelta e).cacheWrite ∧
    0 ≤ (tokensDelta e).total ∧ 0 ≤ costDelta e := by
  unfold usageNonNeg at h
  unfold tokensDelta costDelta
  cases hu : usageOf e with
  | none => norm_num
  | some u =>
    rw [hu] at h
    simpa using h

/-- `startTime ≤ endTime` whenever both endpoints are set. -/
def timesOrdered (s : Session) : Prop :=
  ∀ st en, s.startTime = some st → s.endTime = some en → st ≤ en

lemma foldEntry_timesOrdered (s : Session) (e : Entry) (h : timesOrdered s) :
    timesOrdered (foldEntry s e) := by
  intro st en hst hen
  rw [foldEntry_startTime] at hst
  rw [foldEntry_endTime] at hen
  unfold applyTimestamp at hst hen
  cases hts : e.timestamp with
  | none =>
    rw [hts] at hst hen
    exact h st en hst hen
  | some ts =>
    rw [hts] at hst hen
    simp only [Option.some.injEq] at hst hen
    cases hs : s.startTime with
    | none =>
      cases hsE : s.endTime with
      | none =>
        rw [hs] at hst; rw [hsE] at hen
        dsimp only at hst hen
        omega
      | some en0 =>
        rw [hs] at hst; rw [hsE] at hen
        dsimp only at hst hen
        split at hen <;> omega
    | some st0 =>
      cases hsE : s.endTime with
      | none =>
        rw [hs] at hst; rw [hsE] at hen
        dsimp only at hst hen
        split at hst <;> omega
      | some en0 =>
        have hord : st0 ≤ en0 := h st0 en0 hs hsE
        rw [hs] at hst; rw [hsE] at hen
        dsimp only at hst hen
        split at hst <;> split at hen <;> omega

lemma sessionAfter_succ (lines : List Entry) (filePath fileBase : String)
    (n : Nat) :
    sessionAfter lines filePath fileBase (n + 1) =
      match lines[n]? with
      | some e => foldEntry (sessionAfter lines filePath fileBase n) e
      | none => sessionAfter lines filePath fileBase n := by
  unfold sessionAfter
  rw [List.take_succ]
  cases h : lines[n]? with
  | none => simp [h]
  | some e => simp [h]

lemma sessionAfter_timesOrdered (lines : List Entry)
    (filePath fileBase : String) (n : Nat) :
    timesOrdered (sessionAfter lines filePath fileBase n) := by
  induction n with
  | zero =>
    intro st en hst hen
    simp [sessionAfter, initSession] at hst
  | succ n ih =>
    rw [sessionAfter_succ]
    cases h : lines[n]? with
    | none => simpa [h] using ih
    | some e =>
      exact foldEntry_timesOrdered _ _ ih

/-- C9 (amended): after folding any prefix of a file's decoded events,
`startTime ≤ endTime` whenever both are set (unconditionally); and provided
every usage delta in the file has non-negative fields, every token counter
and the cost are non-decreasing from each folded event to the next. -/
theorem session_builder_invariants (lines : List Entry)
    (filePath fileBase : String) (hnn : ∀ e ∈ lines, usageNonNeg e) :
    (∀ n st en, (sessionAfter lines filePath fileBase n).startTime = some st →
      (sessionAfter lines filePath fileBase n).endTime = some en → st ≤ en) ∧
    (∀ n,
      (sessionAfter lines filePath fileBase n).tokens.input ≤
        (sessionAfter lines filePath fileBase (n + 1)).tokens.input ∧
      (sessionAfter lines filePath fileBase n).tokens.output ≤
        (sessionAfter lines filePath fileBase (n + 1)).tokens.output ∧
      (sessionAfter lines filePath fileBase n).tokens.cacheRead ≤
        (sessionAfter lines filePath fileBase (n + 1)).tokens.cacheRead ∧
      (sessionAfter lines filePath fileBase n).tokens.cacheWrite ≤
        (sessionAfter lines filePath fileBase (n + 1)).tokens.cacheWrite ∧
      (sessionAfter lines filePath fileBase n).tokens.total ≤
        (sessionAfter lines filePath fileBase (n + 1)).tokens.total ∧
      (sessionAfter lines filePath fileBase n).cost ≤
        (sessionAfter lines filePath fileBase (n + 1)).cost) := by
  constructor
  · intro n
    exact sessionAfter_timesOrdered lines filePath fileBase n
  · intro n
    rw [sessionAfter_succ]
    cases h : lines[n]? with
    | none => simp
    | some e =>
      have he : e ∈ lines := by
        have := List.getElem?_eq_some_iff.1 h
        obtain ⟨hlt, hget⟩ := this
        exact hget ▸ List.getElem_mem hlt
      have hd := deltas_nonneg e (hnn e he)
      dsimp only
      rw [foldEntry_tokens, foldEntry_cost]
      unfold addTokens
      dsimp only
      refine ⟨by linarith [hd.1], by linarith [hd.2.1], by linarith [hd.2.2.1],
        by linarith [hd.2.2.2.1], by linarith [hd.2.2.2.2.1],
        by linarith [hd.2.2.2.2.2]⟩

/-- An assistant message whose usage delta carries a NEGATIVE total-token
count (nothing in the decoder rejects negative JSON numbers). -/
def cex9Entry : Entry :=
  ⟨none, "message", none, none, none,
   some ⟨"assistant", none, some ⟨none, none, none, none, some (-1), none⟩,
         none, false⟩⟩

/-- C9 counterexample: folding that event strictly DECREASES the running
total-token counter, so the counters are not monotone over arbitrary
decoded events. -/
theorem session_builder_monotonicity_cex :
    (sessionAfter [cex9Entry] "f.jsonl" "f" 1).tokens.total <
      (sessionAfter [cex9Entry] "f.jsonl" "f" 0).tokens.total := by
  show (List.foldl foldEntry (initSession "f.jsonl" "f")
      (List.take 1 [cex9Entry])).tokens.total <
    (List.foldl foldEntry (initSession "f.jsonl" "f")
      (List.take 0 [cex9Entry])).tokens.total
  rw [List.take_one, List.take_zero]
  simp only [List.head?, List.foldl_cons, List.foldl_nil, Option.toList]
  rw [foldEntry_tokens]
  unfold addTokens tokensDelta usageOf cex9Entry initSession
  norm_num

/-- An assistant message with a well-formed non-negative usage delta. -/
def wit9Entry : Entry :=
  ⟨some 5, "message", none, none, none,
   some ⟨"assistant", none, some ⟨some 1, none, none, none, some 3, some 1⟩,
         none, false⟩⟩

/-- Witness for C9 at a concrete one-entry file. -/
theorem session_builder_invariants_witness :
    (5 : Int) ≤ 5 ∧
    (sessionAfter [wit9Entry] "f.jsonl" "f" 0).tokens.total ≤
      (sessionAfter [wit9Entry] "f.jsonl" "f" 1).tokens.total := by
  have hnn : ∀ e ∈ [wit9Entry], usageNonNeg e := by
    intro e he
    simp only [List.mem_singleton] at he
    subst he
    unfold usageNonNeg usageOf wit9Entry
    norm_num
  have h := session_builder_invariants [wit9Entry] "f.jsonl" "f" hnn
  refine ⟨h.1 1 5 5 ?_ ?_, (h.2 0).2.2.2.2.1⟩
  · decide
  · decide

/-- Tool-call blocks counted by the hot path for one entry (assistant
messages only, unlike the cold path). -/
def watchToolCallsDelta (e : Entry) : Nat :=
  if e.etype = "message" then
    match e.message with
    | some m =>
      if m.role = "assistant" then
        match m.content with
        | some blocks => (blocks.filter (fun b => b.btype = "toolCall")).length
        | none => 0
      else 0
    | none => 0
  else 0

/-- Tokens added by the hot path for one entry. -/
def watchTokensDelta (e : Entry) : ℚ :=
  if e.etype = "message" then
    match e.message with
    | some m =>
      if m.role = "assistant" then
        match m.usage with
        | some u => u.totalTokens.getD 0
        | none => 0
      else 0
    | none => 0
  else 0

/-- Is this entry a tool-result message flagged as an error? -/
def isToolErrorMessage (e : Entry) : Bool :=
  e.etype = "message" &&
    (match e.message with
     | some m => m.role = "toolResult" && m.isError
     | none => false)

lemma watchProcessEntry_eq (stats : RunningStats) (e : Entry)
    (fallbackNow : Int) :
    watchProcessEntry stats e fallbackNow =
      { messages := stats.messages + (if isUserMessage e then 1 else 0),
        toolCalls := stats.toolCalls + watchToolCallsDelta e,
        tokens := stats.tokens + watchTokensDelta e,
        errors := stats.errors + (if isToolErrorMessage e then 1 else 0),
        lastActivity := some (e.timestamp.getD fallbackNow) } := by
  unfold watchProcessEntry isUserMessage watchToolCallsDelta watchTokensDelta
    isToolErrorMessage
  by_cases he : e.etype = "message"
  · simp only [he, if_pos, reduceIte]
    cases hm : e.message with
    | none => simp
    | some msg =>
      by_cases hu : msg.role = "user"
      · have ha : ¬ msg.role = "assistant" := by rw [hu]; decide
        have ht : ¬ msg.role = "toolResult" := by rw [hu]; decide
        simp [hu, ha, ht]
      · by_cases ha : msg.role = "assistant"
        · have ht : ¬ msg.role = "toolResult" := by rw [ha]; decide
          cases hc : msg.content with
          | none =>
            cases husage : msg.usage with
            | none => simp [hu, ha, ht, hc, husage]
            | some u => simp [hu, ha, ht, hc, husage]
          | some blocks =>
            cases husage : msg.usage with
            | none => simp [hu, ha, ht, hc, husage]
            | some u => simp [hu, ha, ht, hc, husage]
        · by_cases ht : msg.role = "toolResult"
          · cases hie : msg.isError with
            | false => simp [hu, ha, ht, hie]
            | true => simp [hu, ha, ht, hie]
          · simp [hu, ha, ht]
  · simp [he]

/-- C10: the hot path increments the `messages` counter if and only if the
folded entry is a message with role user; assistant messages touch only the
tool-call and token counters, tool-result messages only the error counter,
and neither is ever counted in `messages` — unlike the cold path, which
appends a `Message` for every message event of any role. -/
theorem watcher_messages_counts_only_user (stats : RunningStats) (e : Entry)
    (fallbackNow : Int) :
    ((watchProcessEntry stats e fallbackNow).messages =
      stats.messages + (if isUserMessage e then 1 else 0)) ∧
    (∀ s : Session, (foldEntry s e).messages.length =
      s.messages.length + (if isMessageEvent e then 1 else 0)) ∧
    (∀ m, e.message = some m → m.role = "assistant" →
      (watchProcessEntry stats e fallbackNow).messages = stats.messages ∧
      (watchProcessEntry stats e fallbackNow).errors = stats.errors) ∧
    (∀ m, e.message = some m → m.role = "toolResult" →
      (watchProcessEntry stats e fallbackNow).messages = stats.messages ∧
      (watchProcessEntry stats e fallbackNow).toolCalls = stats.toolCalls ∧
      (watchProcessEntry stats e fallbackNow).tokens = stats.tokens) := by
  refine ⟨?_, ?_, ?_, ?_⟩
  · rw [watchProcessEntry_eq]
  · intro s
    exact foldEntry_messages_length s e
  · intro m hm hrole
    have husr : isUserMessage e = false := by
      unfold isUserMessage
      rw [hm]
      simp [hrole]
    have herr : isToolErrorMessage e = false := by
      unfold isToolErrorMessage
      rw [hm]
      simp [hrole]
    rw [watchProcessEntry_eq]
    simp [husr, herr]
  · intro m hm hrole
    have husr : isUserMessage e = false := by
      unfold isUserMessage
      rw [hm]
      simp [hrole]
    have htc : watchToolCallsDelta e = 0 := by
      unfold watchToolCallsDelta
      rw [hm]
      simp [hrole]
    have htok : watchTokensDelta e = 0 := by
      unfold watchTokensDelta
      rw [hm]
      simp [hrole]
    rw [watchProcessEntry_eq]
    simp [husr, htc, htok]

/-- Witness for C10: a user message bumps `messages` by one; an assistant
message with tool-call blocks leaves `messages` and `errors` unchanged. -/
theorem watcher_messages_counts_only_user_witness :
    (watchProcessEntry ⟨0, 0, 0, 0, none⟩ wit4b 0).messages = 1 ∧
    (watchProcessEntry ⟨0, 0, 0, 0, none⟩ wit4a 0).messages = 0 ∧
    (watchProcessEntry ⟨0, 0, 0, 0, none⟩ wit4a 0).errors = 0 := by
  have hb := watcher_messages_counts_only_user ⟨0, 0, 0, 0, none⟩ wit4b 0
  have ha := watcher_messages_counts_only_user ⟨0, 0, 0, 0, none⟩ wit4a 0
  have ha2 := ha.2.2.1 ⟨"assistant", none,
      some ⟨some 1, some 2, none, none, some 9, some 2⟩, none, false⟩ rfl rfl
  refine ⟨?_, ?_, ?_⟩
  · rw [hb.1]
    decide
  · exact ha2.1
  · exact ha2.2

/-- C3 (amended): `filterByDays` returns exactly the sessions with a present
`startTime` at or after `now - days` days; there is NO upper bound, and
sessions with no `startTime` are excluded. -/
theorem filterByDays_mem_iff (sessions : List Session) (now : Int)
    (days : Nat) (s : Session) :
    s ∈ filterByDays sessions now days ↔
      s ∈ sessions ∧ ∃ t, s.startTime = some t ∧ now - (days : Int) * DAY ≤ t := by
  unfold filterByDays inWindow
  rw [List.mem_filter]
  cases hs : s.startTime with
  | none => simp [hs]
  | some t => simp [hs]

/-- A session that starts one full day AFTER the reference instant 0. -/
def cex3Session : Session :=
  { initSession "s.jsonl" "s" with startTime := some DAY }

/-- C3 counterexample: the future-dated session is returned by
`filterByDays` with reference time 0 even though its start time exceeds the
reference time, refuting the claimed closed upper interval bound. -/
theorem filterWindow_upper_bound_cex :
    cex3Session ∈ filterByDays [cex3Session] 0 7 ∧ ¬ (DAY ≤ (0 : Int)) := by
  constructor
  · decide
  · decide

/-- Witness for C3: a session with no `startTime` is excluded, by the
membership characterization applied at a concrete list. -/
theorem filterByDays_mem_iff_witness :
    wit5Sess ∉ filterByDays [wit5Sess] 0 7 := by
  intro hmem
  obtain ⟨-, t, hst, -⟩ := (filterByDays_mem_iff [wit5Sess] 0 7 wit5Sess).1 hmem
  simp [wit5Sess, initSession] at hst

lemma getDailyStats_getD (sessions : List Session) (now : Int)
    (days k : Nat) (hk : k < days) :
    (getDailyStats sessions now days).getD k zeroStat =
      dayRow sessions now (days - 1 - k) := by
  unfold getDailyStats
  have hlen : ((List.range days).map (dayRow sessions now)).length = days := by
    simp
  rw [List.getD_eq_getElem?_getD,
    List.getElem?_reverse (by simpa [hlen] using hk), hlen,
    List.getElem?_map, List.getElem?_range (by omega)]
  rfl

/-- C6: `dailyStats(days)` returns exactly `days` rows; row `k` is the
bucket `days - 1 - k` days back, so rows run oldest-first; and a bucket
matched by zero sessions contributes an all-zero row (only its date is
set), not an omitted row. -/
theorem getDailyStats_shape (sessions : List Session) (now : Int)
    (days : Nat) :
    (getDailyStats sessions now days).length = days ∧
    (∀ k, k < days →
      ((getDailyStats sessions now days).getD k zeroStat).date =
        midnight (now - ((days - 1 - k : Nat) : Int) * DAY)) ∧
    (∀ k, k < days → bucketSessions sessions now (days - 1 - k) = [] →
      (getDailyStats sessions now days).getD k zeroStat =
        { zeroStat with
            date := midnight (now - ((days - 1 - k : Nat) : Int) * DAY) }) := by
  refine ⟨by simp [getDailyStats], ?_, ?_⟩
  · intro k hk
    rw [getDailyStats_getD sessions now days k hk]
    rfl
  · intro k hk hempty
    rw [getDailyStats_getD sessions now days k hk]
    unfold dayRow
    rw [hempty]
    simp [sumBy, zeroStat]

/-- Witness for C6 with an empty session list, two buckets, row 0. -/
theorem getDailyStats_shape_witness :
    (getDailyStats [] 0 2).length = 2 ∧
    ((getDailyStats [] 0 2).getD 0 zeroStat).date =
      midnight (0 - ((2 - 1 - 0 : Nat) : Int) * DAY) ∧
    (getDailyStats [] 0 2).getD 0 zeroStat =
      { zeroStat with date := midnight (0 - ((2 - 1 - 0 : Nat) : Int) * DAY) } := by
  have h := getDailyStats_shape [] 0 2
  exact ⟨h.1, h.2.1 0 (by decide), h.2.2 0 (by decide) (by decide)⟩

lemma weekly_totalSessions (sessions : List Session) (now : Int) (days : Nat) :
    (getWeeklySummary sessions now days).totalSessions =
      (filterByDays sessions now days).length := rfl

lemma weekly_totalToolCalls (sessions : List Session) (now : Int) (days : Nat) :
    (getWeeklySummary sessions now days).totalToolCalls =
      sumBy (filterByDays sessions now days) (fun s => s.toolCalls.length) := rfl

lemma weekly_topTools (sessions : List Session) (now : Int) (days : Nat) :
    (getWeeklySummary sessions now days).topTools =
      (sortByCountDesc (toolCounts (filterByDays sessions now days))).take 10 := rfl

lemma weekly_avgTokens (sessions : List Session) (now : Int) (days : Nat) :
    (getWeeklySummary sessions now days).avgTokensPerSession =
      if 0 < (filterByDays sessions now days).length then
        jsRound (sumBy (filterByDays sessions now days) (fun s => s.tokens.total) /
          ((filterByDays sessions now days).length : ℚ))
      else 0 := rfl

lemma weekly_avgMessages (sessions : List Session) (now : Int) (days : Nat) :
    (getWeeklySummary sessions now days).avgMessagesPerSession =
      if 0 < (filterByDays sessions now days).length then
        jsRound ((sumBy (filterByDays sessions now days)
            (fun s => s.messages.length) : ℚ) /
          ((filterByDays sessions now days).length : ℚ))
      else 0 := rfl

lemma toolCounts_of_all_empty (fs : List Session)
    (h : ∀ s ∈ fs, s.toolCalls = []) : toolCounts fs = [] := by
  unfold toolCounts
  suffices hgen : ∀ acc : List (String × Nat),
      fs.foldl (fun acc s => s.toolCalls.foldl (fun a tc => bumpCount a tc.name) acc) acc = acc from
    hgen []
  induction fs with
  | nil => intro acc; rfl
  | cons s rest ih =>
    intro acc
    rw [List.foldl_cons, h s (List.mem_cons_self s rest)]
    exact ih (fun x hx => h x (List.mem_cons_of_mem s hx)) acc

lemma sumBy_nat_eq_zero {α : Type} (l : List α) (f : α → Nat)
    (h : sumBy l f = 0) : ∀ x ∈ l, f x = 0 := by
  intro x hx
  unfold sumBy at h
  rw [List.sum_eq_zero_iff] at h
  exact h (f x) (List.mem_map_of_mem f hx)

/-- C8: every ratio and average of the aggregator and the anomaly detector
resolves to 0 when its denominator is zero, and the one unguarded division
in the source — the per-tool dominance ratio — can only run with a positive
denominator, because a summary built from any session list has an empty
`topTools` whenever its total tool-call count is zero. -/
theorem division_guards (sessions : List Session) (now : Int) (days : Nat) :
    ((getWeeklySummary sessions now days).totalSessions = 0 →
      (getWeeklySummary sessions now days).avgTokensPerSession = 0 ∧
      (getWeeklySummary sessions now days).avgMessagesPerSession = 0 ∧
      toolsPerSession (getWeeklySummary sessions now days) = 0) ∧
    ((getWeeklySummary sessions now days).totalToolCalls = 0 →
      errorRate (getWeeklySummary sessions now days) = 0 ∧
      (getWeeklySummary sessions now days).topTools = []) ∧
    (totalActivity (getWeeklySummary sessions now days) = 0 →
      nightRatio (getWeeklySummary sessions now days) = 0) ∧
    (∀ p ∈ (getWeeklySummary sessions now days).topTools,
      0 < (getWeeklySummary sessions now days).totalToolCalls) := by
  have htop : (getWeeklySummary sessions now days).totalToolCalls = 0 →
      (getWeeklySummary sessions now days).topTools = [] := by
    intro h0
    rw [weekly_totalToolCalls] at h0
    have hempty : ∀ s ∈ filterByDays sessions now days, s.toolCalls = [] := by
      intro s hs
      have := sumBy_nat_eq_zero _ _ h0 s hs
      exact List.length_eq_zero.1 this
    rw [weekly_topTools, toolCounts_of_all_empty _ hempty]
    rfl
  refine ⟨?_, ?_, ?_, ?_⟩
  · intro h0
    rw [weekly_totalSessions] at h0
    refine ⟨?_, ?_, ?_⟩
    · rw [weekly_avgTokens, h0]
      simp
    · rw [weekly_avgMessages, h0]
      simp
    · unfold toolsPerSession
      rw [weekly_totalSessions, h0]
      simp
  · intro h0
    refine ⟨?_, htop h0⟩
    unfold errorRate
    rw [h0]
    simp
  · intro h0
    unfold nightRatio
    rw [h0]
    simp
  · intro p hp
    rcases Nat.eq_zero_or_pos (getWeeklySummary sessions now days).totalToolCalls with h0 | h0
    · rw [htop h0] at hp
      exact absurd hp (List.not_mem_nil p)
    · exact h0

/-- Witness for C8 with an empty session list (all totals zero). -/
theorem division_guards_witness :
    (getWeeklySummary [] 0 7).avgTokensPerSession = 0 ∧
    toolsPerSession (getWeeklySummary [] 0 7) = 0 ∧
    errorRate (getWeeklySummary [] 0 7) = 0 ∧
    (getWeeklySummary [] 0 7).topTools = [] ∧
    nightRatio (getWeeklySummary [] 0 7) = 0 := by
  have h := division_guards [] 0 7
  have h1 := h.1 (by rw [weekly_totalSessions]; rfl)
  have h2 := h.2.1 (by rw [weekly_totalToolCalls]; rfl)
  have h3 := h.2.2.1 (by
    unfold totalActivity
    have : (getWeeklySummary [] 0 7).hourlyActivity = List.replicate 24 0 := rfl
    rw [this]
    simp [sumBy, List.sum_replicate])
  exact ⟨h1.1, h1.2.2, h2.1, h2.2, h3⟩

/-- Length of the maximal run of zero-session rows at the END of the list. -/
def trailingZeroRun (ds : List DailyStat) : Nat :=
  (ds.reverse.takeWhile (fun d => d.sessions == 0)).length

/-- Length of the run of consecutive zero-session rows ending at position
`i` (the value of the `consecutiveZero` counter after row `i`). -/
def zeroRunLen (ds : List DailyStat) (i : Nat) : Nat :=
  trailingZeroRun (ds.take (i + 1))

lemma trailingZeroRun_append (l : List DailyStat) (x : DailyStat) :
    trailingZeroRun (l ++ [x]) =
      if x.sessions = 0 then trailingZeroRun l + 1 else 0 := by
  unfold trailingZeroRun
  rw [List.reverse_append]
  simp only [List.reverse_singleton, List.singleton_append, List.takeWhile_cons]
  by_cases h : x.sessions = 0
  · simp [h]
  · simp [h]

lemma zeroRunLen_append_of_lt (l : List DailyStat) (x : DailyStat) (i : Nat)
    (h : i < l.length) : zeroRunLen (l ++ [x]) i = zeroRunLen l i := by
  unfold zeroRunLen
  rw [List.take_append_of_le_length (by omega)]

lemma zeroRunLen_append_last (l : List DailyStat) (x : DailyStat) :
    zeroRunLen (l ++ [x]) l.length = trailingZeroRun (l ++ [x]) := by
  unfold zeroRunLen
  rw [List.take_of_length_le (by simp)]

lemma gaps_fold (ds : List DailyStat) :
    ds.foldl gapStep ([], 0) =
      (((List.range ds.length).filter (fun i => 2 ≤ zeroRunLen ds i)).map
         (fun i => gapAnomaly (ds.getD i zeroStat) (zeroRunLen ds i)),
       trailingZeroRun ds) := by
  induction ds using List.reverseRecOn with
  | nil => rfl
  | append_singleton l x ih =>
    rw [List.foldl_append, ih, List.foldl_cons, List.foldl_nil]
    have hfilter :
        (List.range l.length).filter (fun i => 2 ≤ zeroRunLen (l ++ [x]) i) =
          (List.range l.length).filter (fun i => 2 ≤ zeroRunLen l i) := by
      refine List.filter_congr ?_
      intro i hi
      rw [zeroRunLen_append_of_lt l x i (List.mem_range.1 hi)]
    have hmap : ∀ i ∈ (List.range l.length).filter
          (fun i => 2 ≤ zeroRunLen l i),
        gapAnomaly ((l ++ [x]).getD i zeroStat) (zeroRunLen (l ++ [x]) i) =
          gapAnomaly (l.getD i zeroStat) (zeroRunLen l i) := by
      intro i hi
      have hilt : i < l.length := List.mem_range.1 (List.mem_filter.1 hi).1
      rw [zeroRunLen_append_of_lt l x i hilt, List.getD_eq_getElem?_getD,
        List.getD_eq_getElem?_getD, List.getElem?_append_left hilt]
    have hlen : (l ++ [x]).length = l.length + 1 := by simp
    rw [hlen, List.range_succ, List.filter_append, List.map_append, hfilter,
      List.map_congr_left hmap]
    have hlast : (l ++ [x]).getD l.length zeroStat = x := by
      rw [List.getD_eq_getElem?_getD, List.getElem?_append_right (le_refl _)]
      simp
    unfold gapStep
    by_cases hx : x.sessions = 0
    · have hrun : zeroRunLen (l ++ [x]) l.length = trailingZeroRun l + 1 := by
        rw [zeroRunLen_append_last, trailingZeroRun_append, if_pos hx]
      by_cases h2 : 2 ≤ trailingZeroRun l + 1
      · simp [hx, hrun, h2, hlast, trailingZeroRun_append]
      · simp [hx, hrun, h2, trailingZeroRun_append]
    · have hrun : zeroRunLen (l ++ [x]) l.length = 0 := by
        rw [zeroRunLen_append_last, trailingZeroRun_append, if_neg hx]
      simp [hx, hrun, trailingZeroRun_append]

/-- C7: the activity-gap rule emits exactly one low-severity finding for
each day position at which the current run of consecutive zero-session
days has length at least 2 (its value being the current run length), and
no finding for positions whose current run is shorter — so a maximal zero
run of length L ≥ 2 yields L - 1 findings. -/
theorem detectActivityGaps_fires_per_position (dailyStats : List DailyStat) :
    detectActivityGaps dailyStats =
      ((List.range dailyStats.length).filter
        (fun i => 2 ≤ zeroRunLen dailyStats i)).map
        (fun i => gapAnomaly (dailyStats.getD i zeroStat)
          (zeroRunLen dailyStats i)) := by
  unfold detectActivityGaps
  rw [gaps_fold]

lemma sum_map_add {ι M : Type} [AddCommMonoid M] (l : List ι) (f g : ι → M) :
    (l.map (fun i => f i + g i)).sum = (l.map f).sum + (l.map g).sum := by
  induction l with
  | nil => simp
  | cons x xs ih =>
    rw [List.map_cons, List.sum_cons, ih, List.map_cons, List.sum_cons,
      List.map_cons, List.sum_cons, add_add_add_comm]

lemma sum_ite_all_false {M : Type} [AddCommMonoid M] (v : M) (l : List Nat)
    (p : Nat → Bool) (hp : ∀ i ∈ l, p i = false) :
    (l.map (fun i => if p i then v else 0)).sum = 0 := by
  apply List.sum_eq_zero
  intro y hy
  rw [List.mem_map] at hy
  obtain ⟨i, hi, rfl⟩ := hy
  simp [hp i hi]

lemma sum_ite_unique {M : Type} [AddCommMonoid M] (v : M) (n j : Nat)
    (hlt : j < n) (p : Nat → Bool) (hp : ∀ i, p i = true ↔ i = j) :
    ((List.range n).map (fun i => if p i then v else 0)).sum = v := by
  induction n with
  | zero => omega
  | succ n ih =>
    rw [List.range_succ, List.map_append, List.sum_append]
    rcases Nat.lt_succ_iff_lt_or_eq.1 hlt with h | h
    · rw [ih h]
      have hn : p n = false := by
        cases hpn : p n
        · rfl
        · exact absurd ((hp n).1 hpn) (by omega)
      simp [hn]
    · subst h
      have hfalse : ∀ i ∈ List.range j, p i = false := by
        intro i hi
        have hilt := List.mem_range.1 hi
        cases hpi : p i
        · rfl
        · exact absurd ((hp i).1 hpi) (by omega)
      rw [sum_ite_all_false v _ p hfalse]
      simp [(hp j).2 rfl]

lemma bucket_mem_unique (now t : Int) (days : Nat)
    (h1 : midnight now - ((days : Int) - 1) * DAY ≤ t) (h2 : t ≤ now) :
    ∃ j : Nat, j < days ∧ ∀ i : Nat, (inBucket now i t = true ↔ i = j) := by
  refine ⟨((midnight now + DAY - 1 - t) / DAY).toNat, ?_, ?_⟩
  · simp only [midnight, DAY] at h1 h2 ⊢
    omega
  · intro i
    simp only [inBucket, midnight, DAY, decide_eq_true_eq]
    omega

lemma window_of_range (now t : Int) (days : Nat)
    (h1 : midnight now - ((days : Int) - 1) * DAY ≤ t) :
    now - (days : Int) * DAY ≤ t := by
  simp only [midnight, DAY] at h1 ⊢
  omega

lemma sumBy_filter_cons {α M : Type} [AddCommMonoid M] (p : α → Bool)
    (x : α) (l : List α) (g : α → M) :
    sumBy ((x :: l).filter p) g = (if p x then g x else 0) + sumBy (l.filter p) g := by
  rw [List.filter_cons]
  by_cases hp : p x
  · simp [hp, sumBy]
  · simp [hp, sumBy]

lemma inBucketS_of_some (now : Int) (i : Nat) (s : Session) (t : Int)
    (hs : s.startTime = some t) : inBucketS now i s = inBucket now i t := by
  unfold inBucketS
  rw [hs]

lemma inWindow_of_some (now : Int) (days : Nat) (s : Session) (t : Int)
    (hs : s.startTime = some t) :
    inWindow now days s = decide (now - (days : Int) * DAY ≤ t) := by
  unfold inWindow
  rw [hs]

lemma sum_buckets_eq_sum_window {M : Type} [AddCommMonoid M]
    (g : Session → M) (L : List Session) (now : Int) (days : Nat)
    (h : ∀ s ∈ L, ∀ t, s.startTime = some t →
      midnight now - ((days : Int) - 1) * DAY ≤ t ∧ t ≤ now) :
    ((List.range days).map (fun i => sumBy (L.filter (inBucketS now i)) g)).sum =
      sumBy (L.filter (inWindow now days)) g := by
  induction L with
  | nil =>
    simp only [List.filter_nil]
    rw [show sumBy ([] : List Session) g = 0 from rfl]
    exact List.sum_eq_zero (by
      intro y hy
      rw [List.mem_map] at hy
      obtain ⟨i, hi, rfl⟩ := hy
      rfl)
  | cons s rest ih =>
    have hrest := ih (fun x hx t ht => h x (List.mem_cons_of_mem s hx) t ht)
    have hstep : ∀ i ∈ List.range days,
        sumBy ((s :: rest).filter (inBucketS now i)) g =
          (if inBucketS now i s then g s else 0) +
            sumBy (rest.filter (inBucketS now i)) g := by
      intro i hi
      exact sumBy_filter_cons _ s rest g
    rw [List.map_congr_left hstep, sum_map_add, hrest,
      sumBy_filter_cons (inWindow now days) s rest g]
    congr 1
    cases hs : s.startTime with
    | none =>
      rw [sum_ite_all_false]
      · rw [show inWindow now days s = false by unfold inWindow; rw [hs]]
        simp
      · intro i hi
        unfold inBucketS
        rw [hs]
    | some t =>
      obtain ⟨hr1, hr2⟩ := h s (List.mem_cons_self s rest) t hs
      obtain ⟨j, hj, hpj⟩ := bucket_mem_unique now t days hr1 hr2
      have hps : ∀ i : Nat, (inBucketS now i s = true ↔ i = j) := by
        intro i
        rw [inBucketS_of_some now i s t hs]
        exact hpj i
      rw [sum_ite_unique (g s) days j hj _ hps,
        inWindow_of_some now days s t hs,
        decide_eq_true (window_of_range now t days hr1)]
      simp

lemma length_eq_sumBy_one {α : Type} (l : List α) :
    l.length = sumBy l (fun _ => (1 : Nat)) := by
  induction l with
  | nil => rfl
  | cons x xs ih =>
    unfold sumBy at ih ⊢
    rw [List.length_cons, ih, List.map_cons, List.sum_cons]
    omega

lemma weekly_totalMessages (sessions : List Session) (now : Int) (days : Nat) :
    (getWeeklySummary sessions now days).totalMessages =
      sumBy (filterByDays sessions now days) (fun s => s.messages.length) := rfl

lemma weekly_totalTokens (sessions : List Session) (now : Int) (days : Nat) :
    (getWeeklySummary sessions now days).totalTokens =
      sumBy (filterByDays sessions now days) (fun s => s.tokens.total) := rfl

lemma weekly_totalCost (sessions : List Session) (now : Int) (days : Nat) :
    (getWeeklySummary sessions now days).totalCost =
      sumBy (filterByDays sessions now days) (fun s => s.cost) := rfl

lemma daily_field_sum {M : Type} [AddCommMonoid M] (sessions : List Session)
    (now : Int) (days : Nat) (f : DailyStat → M) :
    ((getDailyStats sessions now days).map f).sum =
      ((List.range days).map (fun i => f (dayRow sessions now i))).sum := by
  unfold getDailyStats
  rw [List.map_reverse, List.sum_reverse, List.map_map]
  rfl

/-- C2 (amended): the `windowSummary(N)` totals (sessions, messages, tool
calls, tokens, cost) equal the sums of the corresponding `dailyStats(N)`
columns for the same reference time, PROVIDED every session start time lies
in the span the daily buckets cover up to the reference instant,
`[midnight(now) - (N-1) days, now]`.  (Unrestricted, the two windows differ:
see the counterexample.) -/
theorem windowSummary_totals_eq_dailyStats_sums (sessions : List Session)
    (now : Int) (days : Nat)
    (h : ∀ s ∈ sessions, ∀ t, s.startTime = some t →
      midnight now - ((days : Int) - 1) * DAY ≤ t ∧ t ≤ now) :
    (getWeeklySummary sessions now days).totalSessions =
      ((getDailyStats sessions now days).map (fun d => d.sessions)).sum ∧
    (getWeeklySummary sessions now days).totalMessages =
      ((getDailyStats sessions now days).map (fun d => d.messages)).sum ∧
    (getWeeklySummary sessions now days).totalToolCalls =
      ((getDailyStats sessions now days).map (fun d => d.toolCalls)).sum ∧
    (getWeeklySummary sessions now days).totalTokens =
      ((getDailyStats sessions now days).map (fun d => d.tokens)).sum ∧
    (getWeeklySummary sessions now days).totalCost =
      ((getDailyStats sessions now days).map (fun d => d.cost)).sum := by
  refine ⟨?_, ?_, ?_, ?_, ?_⟩
  · rw [weekly_totalSessions, daily_field_sum]
    show (filterByDays sessions now days).length = _
    unfold filterByDays
    rw [length_eq_sumBy_one,
      ← sum_buckets_eq_sum_window (fun _ => (1 : Nat)) sessions now days h]
    refine congrArg List.sum (List.map_congr_left ?_)
    intro i hi
    exact (length_eq_sumBy_one _).symm
  · rw [weekly_totalMessages, daily_field_sum]
    unfold filterByDays
    rw [← sum_buckets_eq_sum_window (fun s => s.messages.length) sessions now days h]
    rfl
  · rw [weekly_totalToolCalls, daily_field_sum]
    unfold filterByDays
    rw [← sum_buckets_eq_sum_window (fun s => s.toolCalls.length) sessions now days h]
    rfl
  · rw [weekly_totalTokens, daily_field_sum]
    unfold filterByDays
    rw [← sum_buckets_eq_sum_window (fun s => s.tokens.total) sessions now days h]
    rfl
  · rw [weekly_totalCost, daily_field_sum]
    unfold filterByDays
    rw [← sum_buckets_eq_sum_window (fun s => s.cost) sessions now days h]
    rfl

/-- A session starting at 12:00 on day 0, with one recorded message. -/
def cex2Session : Session :=
  { initSession "c.jsonl" "c" with
      startTime := some (12 * HOUR),
      messages := [⟨"user", some (12 * HOUR), false⟩] }

/-- C2 counterexample: with reference time 12:00 on day 7, the session
started exactly 7 x 24h earlier passes `filterByDays 7` (cutoff is
`now - 7` days) but precedes the oldest daily bucket (buckets start at the
midnight 6 days before `now`), so the windowSummary session and message
totals exceed the daily sums. -/
theorem windowSummary_cross_check_cex :
    (getWeeklySummary [cex2Session] (7 * DAY + 12 * HOUR) 7).totalSessions = 1 ∧
    ((getDailyStats [cex2Session] (7 * DAY + 12 * HOUR) 7).map
      (fun d => d.sessions)).sum = 0 := by
  constructor
  · rw [weekly_totalSessions]
    decide
  · rw [daily_field_sum]
    decide

/-- A session starting at 11:00 on day 7, inside the daily-bucket span. -/
def wit2Session : Session :=
  { initSession "w.jsonl" "w" with startTime := some (7 * DAY + 11 * HOUR) }

/-- Witness for C2 at a concrete in-span session list. -/
theorem windowSummary_totals_witness :
    (getWeeklySummary [wit2Session] (7 * DAY + 12 * HOUR) 7).totalSessions =
      ((getDailyStats [wit2Session] (7 * DAY + 12 * HOUR) 7).map
        (fun d => d.sessions)).sum := by
  have h := windowSummary_totals_eq_dailyStats_sums [wit2Session]
    (7 * DAY + 12 * HOUR) 7 (by
      intro s hs t ht
      simp only [List.mem_singleton] at hs
      subst hs
      simp only [wit2Session, initSession] at ht
      have ht2 : t = 7 * DAY + 11 * HOUR := by
        simpa using ht.symm
      subst ht2
      constructor
      · simp only [midnight, DAY, HOUR]
        decide
      · simp only [DAY, HOUR]
        decide)
  exact h.1

lemma weekly_toolErrors (sessions : List Session) (now : Int) (days : Nat) :
    (getWeeklySummary sessions now days).toolErrors =
      sumBy (filterByDays sessions now days) (fun s =>
        (s.toolCalls.filter (fun tc =>
          match tc.result with
          | some r => r.isError
          | none => false)).length) := rfl

lemma weekly_hourly (sessions : List Session) (now : Int) (days : Nat) :
    (getWeeklySummary sessions now days).hourlyActivity =
      hourlyOf (filterByDays sessions now days) := rfl

/-- C1 (amended): the detector output is the concatenation of the rule
findings in SOURCE order: token spike, then high error rate, then unusual
hours, then cost spike, then activity gap, then tool dominance and high
call frequency. -/
theorem detect_rule_concatenation (sessions : List Session) (now : Int) :
    detect sessions now =
      detectTokenSpikes (getDailyStats sessions now 7)
          (getWeeklySummary sessions now 7) ++
        (detectToolErrors (getWeeklySummary sessions now 7) ++
        (detectUnusualHours (getWeeklySummary sessions now 7) ++
        (detectCostSpikes (getDailyStats sessions now 7)
            (getWeeklySummary sessions now 7) ++
        (detectActivityGaps (getDailyStats sessions now 7) ++
          detectHighToolUsage (getWeeklySummary sessions now 7))))) := by
  unfold detect
  simp [List.append_assoc]

/-- Reference instant for the C1 counterexample: 12:00 on day 7. -/
def cex1Now : Int := 7 * DAY + 12 * HOUR

/-- A tool call whose result is an error. -/
def cex1Call : ToolCall := ⟨some "i", "t", none, some ⟨true, none⟩⟩

/-- One session today at 11:00 with six failed tool calls and cost 10:
this makes both the high-error-rate rule and the cost-spike rule fire. -/
def cex1Session : Session :=
  { initSession "a.jsonl" "a" with
      startTime := some (7 * DAY + 11 * HOUR),
      cost := 10,
      toolCalls := List.replicate 6 cex1Call }

/-- An all-zero daily row dated `k` days into the timeline. -/
def cex1Row (k : Nat) : DailyStat := { zeroStat with date := (k : Int) * DAY }

/-- The daily row of the counterexample session's bucket. -/
def cex1Today : DailyStat := ⟨7 * DAY, 1, 0, 6, 0, 10, 0, 0⟩

lemma cex1_filter : filterByDays [cex1Session] cex1Now 7 = [cex1Session] := by
  unfold filterByDays
  rw [List.filter_cons]
  have htrue : inWindow cex1Now 7 cex1Session = true := by
    simp only [inWindow, cex1Session, initSession, cex1Now, DAY, HOUR,
      decide_eq_true_eq]
    omega
  simp [htrue]

lemma cex1_bucket0 : bucketSessions [cex1Session] cex1Now 0 = [cex1Session] := by
  unfold bucketSessions
  rw [List.filter_cons]
  have htrue : inBucketS cex1Now 0 cex1Session = true := by
    simp only [inBucketS, cex1Session, initSession, inBucket, midnight,
      cex1Now, DAY, HOUR, decide_eq_true_eq]
    omega
  simp [htrue]

lemma cex1_bucket_ne (i : Nat) (h : i ≠ 0) :
    bucketSessions [cex1Session] cex1Now i = [] := by
  unfold bucketSessions
  rw [List.filter_cons]
  have hfalse : inBucketS cex1Now i cex1Session = false := by
    simp only [inBucketS, cex1Session, initSession, inBucket, midnight,
      cex1Now, DAY, HOUR, decide_eq_false_iff_not]
    omega
  simp [hfalse]

lemma cex1_dayRow_ne (i : Nat) (h : i ≠ 0) :
    dayRow [cex1Session] cex1Now i =
      { zeroStat with date := midnight (cex1Now - (i : Int) * DAY) } := by
  unfold dayRow
  rw [cex1_bucket_ne i h]
  rfl

lemma cex1_dayRow0 : dayRow [cex1Session] cex1Now 0 = cex1Today := by
  unfold dayRow
  rw [cex1_bucket0]
  simp only [cex1Today, DailyStat.mk.injEq, sumBy, List.map_cons, List.map_nil,
    List.sum_cons, List.sum_nil, cex1Session, initSession]
  refine ⟨?_, ?_, ?_, ?_, ?_, ?_, ?_, ?_⟩
  · simp only [midnight, cex1Now, DAY, HOUR]
    decide
  · rfl
  · rfl
  · simp
  · norm_num
  · norm_num
  · simp
  · simp

lemma cex1_daily :
    getDailyStats [cex1Session] cex1Now 7 =
      [cex1Row 1, cex1Row 2, cex1Row 3, cex1Row 4, cex1Row 5, cex1Row 6,
       cex1Today] := by
  have hrange : List.range 7 = [0, 1, 2, 3, 4, 5, 6] := by decide
  unfold getDailyStats
  rw [hrange]
  simp only [List.map_cons, List.map_nil, List.reverse_cons, List.reverse_nil,
    List.nil_append, List.cons_append, List.append_nil]
  rw [cex1_dayRow0, cex1_dayRow_ne 1 (by decide), cex1_dayRow_ne 2 (by decide),
    cex1_dayRow_ne 3 (by decide), cex1_dayRow_ne 4 (by decide),
    cex1_dayRow_ne 5 (by decide), cex1_dayRow_ne 6 (by decide)]
  simp only [List.cons.injEq, and_true]
  refine ⟨?_, ?_, ?_, ?_, ?_, ?_⟩ <;>
    (simp only [cex1Row, zeroStat, DailyStat.mk.injEq, midnight, cex1Now,
      DAY, HOUR]; norm_num)

lemma cex1_totalToolCalls :
    (getWeeklySummary [cex1Session] cex1Now 7).totalToolCalls = 6 := by
  rw [weekly_totalToolCalls, cex1_filter]
  decide

lemma cex1_toolErrors :
    (getWeeklySummary [cex1Session] cex1Now 7).toolErrors = 6 := by
  rw [weekly_toolErrors, cex1_filter]
  decide

lemma cex1_totalSessions :
    (getWeeklySummary [cex1Session] cex1Now 7).totalSessions = 1 := by
  rw [weekly_totalSessions, cex1_filter]
  decide

lemma cex1_totalCost :
    (getWeeklySummary [cex1Session] cex1Now 7).totalCost = 10 := by
  rw [weekly_totalCost, cex1_filter]
  simp [sumBy, cex1Session, initSession]

lemma cex1_errorRate :
    errorRate (getWeeklySummary [cex1Session] cex1Now 7) = 1 := by
  unfold errorRate
  rw [cex1_totalToolCalls, cex1_toolErrors]
  norm_num

lemma cex1_err :
    detectToolErrors (getWeeklySummary [cex1Session] cex1Now 7) =
      [⟨AnomalyType.high_error_rate, Severity.high, none,
        errorRate (getWeeklySummary [cex1Session] cex1Now 7),
        some ((1 : ℚ)/10), none⟩] := by
  unfold detectToolErrors
  rw [if_pos ⟨by rw [cex1_errorRate]; norm_num,
    by rw [cex1_toolErrors]; norm_num⟩]

lemma cex1_tok :
    detectTokenSpikes (getDailyStats [cex1Session] cex1Now 7)
      (getWeeklySummary [cex1Session] cex1Now 7) = [] := by
  rw [cex1_daily]
  unfold detectTokenSpikes
  simp only [List.filterMap_cons, List.filterMap_nil]
  norm_num [cex1Row, cex1Today, zeroStat]

lemma cex1_hours :
    detectUnusualHours (getWeeklySummary [cex1Session] cex1Now 7) = [] := by
  have hna : nightActivity (getWeeklySummary [cex1Session] cex1Now 7) = 0 := by
    unfold nightActivity
    rw [weekly_hourly, cex1_filter]
    decide
  have hcond : ¬((3 : ℚ)/10 <
      nightRatio (getWeeklySummary [cex1Session] cex1Now 7) ∧
      5 < nightActivity (getWeeklySummary [cex1Session] cex1Now 7)) := by
    intro hc
    rw [hna] at hc
    exact absurd hc.2 (by norm_num)
  unfold detectUnusualHours
  rw [if_neg hcond]

lemma cex1_cost :
    detectCostSpikes (getDailyStats [cex1Session] cex1Now 7)
      (getWeeklySummary [cex1Session] cex1Now 7) =
      [⟨AnomalyType.cost_spike, Severity.high, some (7 * DAY), 10,
        some ((10 : ℚ)/7 * 3), none⟩] := by
  rw [cex1_daily]
  unfold detectCostSpikes
  rw [cex1_totalCost]
  simp only [List.filterMap_cons, List.filterMap_nil]
  norm_num [cex1Row, cex1Today, zeroStat]

lemma cex1_topTools :
    (getWeeklySummary [cex1Session] cex1Now 7).topTools = [("t", 6)] := by
  rw [weekly_topTools, cex1_filter]
  decide

lemma cex1_htu :
    detectHighToolUsage (getWeeklySummary [cex1Session] cex1Now 7) = [] := by
  unfold detectHighToolUsage
  rw [cex1_topTools]
  have hts : toolsPerSession (getWeeklySummary [cex1Session] cex1Now 7) = 6 := by
    unfold toolsPerSession
    rw [cex1_totalSessions, cex1_totalToolCalls]
    norm_num
  rw [hts]
  simp only [List.filterMap_cons, List.filterMap_nil]
  norm_num

/-- C1 counterexample: at a concrete input where both the error-rate rule
and the cost-spike rule fire, the detector output does NOT equal the
concatenation in the claimed table order (token spike, cost spike, error
rate, unusual hours, gap, dominance, frequency): the source evaluates the
error-rate and unusual-hours rules BEFORE the cost-spike rule. -/
theorem detect_spec_order_cex :
    detect [cex1Session] cex1Now ≠
      detectTokenSpikes (getDailyStats [cex1Session] cex1Now 7)
          (getWeeklySummary [cex1Session] cex1Now 7) ++
        detectCostSpikes (getDailyStats [cex1Session] cex1Now 7)
          (getWeeklySummary [cex1Session] cex1Now 7) ++
        detectToolErrors (getWeeklySummary [cex1Session] cex1Now 7) ++
        detectUnusualHours (getWeeklySummary [cex1Session] cex1Now 7) ++
        detectActivityGaps (getDailyStats [cex1Session] cex1Now 7) ++
        detectHighToolUsage (getWeeklySummary [cex1Session] cex1Now 7) := by
  intro hcontra
  simp only [detect] at hcontra
  rw [cex1_tok, cex1_err, cex1_hours, cex1_cost, cex1_htu] at hcontra
  simp [Anomaly.mk.injEq] at hcontra
